import Mathlib

/-!
# Shallow embedding of the UniversalMCPClient core (src/client.ts, src/types.ts)

This file models the connection/registry/dispatch layer and the LLM tool-use
orchestration loop of the `UniversalMCPClient` TypeScript class.

Modelling conventions:
* JavaScript `Map` objects (`clients`, `transports`, `serverInfos`) become
  association lists in insertion order; `Map.set` on an existing key replaces
  the value in place, otherwise appends (matching JS `Map` iteration order).
* The MCP SDK `Client` instances are opaque handles modelled by a `Nat` uid,
  supplied fresh by the caller of `connectToServer`.
* Network / subprocess I/O (the protocol session behind a `Client`) is
  modelled by oracle functions passed as explicit parameters; an operation
  that does not consult the oracle provably performs no channel I/O.
* Thrown JS errors become `Except MCPError`; the message rendering of
  `${error}` in template literals is `MCPError.render`.
* Opaque JSON payloads (tool arguments, tool results, schemas) are modelled
  as `String`s; the `JSON.stringify` applied to a tool result before it is
  fed back to the model is absorbed into the session oracle's output, which
  is already the serialized text.
* JS truthiness tests on optional strings (`if (anthropicApiKey)`,
  `if (preferredServer ...)`, `if (serverName)`) are modelled explicitly:
  `none` and `some ""` are both falsy.
-/

namespace UMC

/-- Tool descriptor as stored in a `ServerInfo` (src/types.ts `ServerInfo.tools`). -/
structure Tool where
  name : String
  description : Option String
  inputSchema : Option String
deriving DecidableEq, Repr

/-- Resource descriptor (src/types.ts `ServerInfo.resources`). -/
structure Resource where
  uri : String
  name : Option String
  mimeType : Option String
deriving DecidableEq, Repr

/-- Prompt descriptor (src/types.ts `ServerInfo.prompts`). -/
structure Prompt where
  name : String
  description : Option String
deriving DecidableEq, Repr

/-- Per-server capability snapshot (src/types.ts `ServerInfo`). -/
structure ServerInfo where
  name : String
  tools : List Tool
  resources : List Resource
  prompts : List Prompt
deriving DecidableEq, Repr

/-- Transport kind tag (src/types.ts `MCPServerConfig.transport.type`). -/
inductive TransportType where
  | stdio
  | sse
deriving DecidableEq, Repr

/-- Stdio transport configuration (src/types.ts). -/
structure StdioTransportConfig where
  command : String
  args : List String
  env : Option (List (String × String))
deriving DecidableEq, Repr

/-- SSE transport configuration (src/types.ts). -/
structure SseTransportConfig where
  url : String
  headers : Option (List (String × String))
deriving DecidableEq, Repr

/-- The tagged transport configuration union (src/types.ts). -/
structure TransportConfig where
  type : TransportType
  stdio : Option StdioTransportConfig
  sse : Option SseTransportConfig
deriving DecidableEq, Repr

/-- Server descriptor (src/types.ts `MCPServerConfig`). -/
structure MCPServerConfig where
  name : String
  transport : TransportConfig
  description : Option String
deriving DecidableEq, Repr

/-- A live transport binding, as constructed by `connectToServer`
(`StdioClientTransport` / `SSEClientTransport`). -/
inductive Transport where
  | stdio (command : String) (args : List String) (env : List (String × String))
  | sse (url : String)
deriving DecidableEq, Repr

/-- The error taxonomy of the thrown JS `Error`s of src/client.ts. -/
inductive MCPError where
  /-- `Invalid transport configuration for server ${serverName}` -/
  | invalidTransportConfig (serverName : String)
  /-- `Server ${serverName} not connected` -/
  | notConnected (serverName : String)
  /-- `Anthropic API key not configured` -/
  | apiKeyNotConfigured
  /-- an error raised by the protocol session / SDK, rethrown verbatim;
  carries its JS string rendering -/
  | sessionError (rendered : String)
deriving DecidableEq, Repr

/-- The string interpolation `${error}` of a JS `Error` object. -/
def MCPError.render : MCPError → String
  | .invalidTransportConfig s => "Error: Invalid transport configuration for server " ++ s
  | .notConnected s => "Error: Server " ++ s ++ " not connected"
  | .apiKeyNotConfigured => "Error: Anthropic API key not configured"
  | .sessionError r => r

/-! ## JS `Map` as an insertion-ordered association list -/

/-- `Map.prototype.get`: the value stored at the first (on a `Map`, only)
occurrence of the key. -/
def mapGet {α : Type} : List (String × α) → String → Option α
  | [], _ => none
  | p :: m, k => if p.1 = k then some p.2 else mapGet m k

/-- `Map.prototype.has`. -/
def mapHas {α : Type} : List (String × α) → String → Bool
  | [], _ => false
  | p :: m, k => p.1 = k || mapHas m k

/-- `Map.prototype.set`: replaces the value in place if the key is present
(keeping its insertion position), otherwise appends. `Map` keys are unique,
so replacing the first occurrence is the `Map` semantics. -/
def mapSet {α : Type} : List (String × α) → String → α → List (String × α)
  | [], k, v => [(k, v)]
  | p :: m, k, v => if p.1 = k then (k, v) :: m else p :: mapSet m k v

/-- `Map.prototype.delete`: removes the (on a `Map`, unique) entry of the key. -/
def mapDelete {α : Type} : List (String × α) → String → List (String × α)
  | [], _ => []
  | p :: m, k => if p.1 = k then mapDelete m k else p :: mapDelete m k

/-! ## Client state (the private fields of `UniversalMCPClient`) -/

/-- The mutable fields of the `UniversalMCPClient` class: `clients`,
`transports`, `serverInfos`, `anthropic` (presence of the SDK handle) and
`anthropicModel`. -/
structure ClientState where
  clients : List (String × Nat)
  transports : List (String × Transport)
  serverInfos : List (String × ServerInfo)
  anthropic : Bool
  anthropicModel : String
deriving DecidableEq, Repr

/-- The constructor `new UniversalMCPClient(anthropicApiKey?, anthropicModel?)`:
the Anthropic handle exists iff the key is truthy; the model name defaults to claude-3-5-sonnet-20241022 when the given one is falsy. -/
def mkClient (anthropicApiKey : Option String) (anthropicModel : Option String) : ClientState :=
  { clients := []
    transports := []
    serverInfos := []
    anthropic := match anthropicApiKey with
      | some k => decide (k ≠ "")
      | none => false
    anthropicModel := match anthropicModel with
      | some m => if m = "" then "claude-3-5-sonnet-20241022" else m
      | none => "claude-3-5-sonnet-20241022" }

/-! ## Connection lifecycle -/

/-- The outcomes of the three capability list calls issued by
`discoverServerCapabilities`; each is independently fallible. -/
structure ListOutcomes where
  tools : Except String (List Tool)
  resources : Except String (List Resource)
  prompts : Except String (List Prompt)

/-- The per-capability fallback of capability discovery: the settled list
result when fulfilled, the empty list when the list call failed (both the
promise catch fallback and the settle-all join funnel failures here). -/
def capOrEmpty {α : Type} : Except String (List α) → List α
  | .ok xs => xs
  | .error _ => []

/-- `discoverServerCapabilities(serverName)`: returns early when no client is
registered; otherwise records a `ServerInfo` whose three capability lists each
fall back to `[]` on failure of the corresponding list call. Never fails. -/
def discoverServerCapabilities (st : ClientState) (serverName : String)
    (outcomes : ListOutcomes) : ClientState :=
  match mapGet st.clients serverName with
  | none => st
  | some _ =>
    let serverInfo : ServerInfo :=
      { name := serverName
        tools := capOrEmpty outcomes.tools
        resources := capOrEmpty outcomes.resources
        prompts := capOrEmpty outcomes.prompts }
    { st with serverInfos := mapSet st.serverInfos serverName serverInfo }

/-- The transport construction of `connectToServer`: a stdio binding when the
type tag is stdio and the stdio block is present, an SSE binding when the
type tag is sse and the sse block is present, otherwise the thrown
`Invalid transport configuration` error. -/
def buildTransport (serverName : String) (config : MCPServerConfig) :
    Except MCPError Transport :=
  match config.transport.type, config.transport.stdio, config.transport.sse with
  | TransportType.stdio, some s, _ =>
    Except.ok (Transport.stdio s.command s.args (s.env.getD []))
  | TransportType.sse, _, some e =>
    Except.ok (Transport.sse e.url)
  | _, _, _ => Except.error (MCPError.invalidTransportConfig serverName)

/-- `connectToServer(serverName, config)`.

`newClient` is the fresh opaque handle produced by `new Client(...)`;
`connectOutcome` is the result of `await client.connect(transport)` (a failure
is rethrown). On success the client and transport are inserted and capability
discovery runs before returning. The second component of the result lists the
uids of handles on which `close()` was invoked during the call: the source
contains no `close()` call in `connectToServer`, so it is always `[]` — in
particular a pre-existing handle under the same name is overwritten in the
map without being closed. -/
def connectToServer (st : ClientState) (serverName : String) (config : MCPServerConfig)
    (newClient : Nat) (connectOutcome : Except MCPError Unit)
    (outcomes : ListOutcomes) : Except MCPError (ClientState × List Nat) :=
  match buildTransport serverName config with
  | Except.error e => Except.error e
  | Except.ok transport =>
    match connectOutcome with
    | Except.error e => Except.error e
    | Except.ok _ =>
      let st1 : ClientState :=
        { st with
          clients := mapSet st.clients serverName newClient
          transports := mapSet st.transports serverName transport }
      Except.ok (discoverServerCapabilities st1 serverName outcomes, [])

/-- `disconnect(serverName?)`. The JS guard `if (serverName)` is a truthiness
test, so `none` and `some ""` both take the disconnect-all branch. The second
component lists the uids of the handles that were closed. Disconnecting a
non-empty unknown name is a no-op. -/
def disconnect (st : ClientState) (serverName : Option String) : ClientState × List Nat :=
  match serverName with
  | some name =>
    if name = "" then
      ({ st with clients := [], transports := [], serverInfos := [] },
        st.clients.map (fun p => p.2))
    else
      match mapGet st.clients name with
      | some c =>
        ({ st with
            clients := mapDelete st.clients name
            transports := mapDelete st.transports name
            serverInfos := mapDelete st.serverInfos name }, [c])
      | none => (st, [])
  | none =>
    ({ st with clients := [], transports := [], serverInfos := [] },
      st.clients.map (fun p => p.2))

/-! ## Dispatch -/

/-- `callTool(serverName, toolName, args)`: fails fast with the
`Server ... not connected` error when the registry holds no client for the
name, before the session oracle is consulted; otherwise delegates to the
session of the registered client and passes its result or rethrows its error
verbatim. -/
def callTool (st : ClientState) (session : Nat → String → String → Except MCPError String)
    (serverName toolName : String) (args : String) : Except MCPError String :=
  match mapGet st.clients serverName with
  | none => Except.error (MCPError.notConnected serverName)
  | some c => session c toolName args

/-- `readResource(serverName, uri)`: same fail-fast shape as `callTool`. -/
def readResource (st : ClientState) (session : Nat → String → Except MCPError String)
    (serverName uri : String) : Except MCPError String :=
  match mapGet st.clients serverName with
  | none => Except.error (MCPError.notConnected serverName)
  | some c => session c uri

/-- `getPrompt(serverName, name, args?)`: same fail-fast shape as `callTool`. -/
def getPrompt (st : ClientState)
    (session : Nat → String → Option String → Except MCPError String)
    (serverName name : String) (args : Option String) : Except MCPError String :=
  match mapGet st.clients serverName with
  | none => Except.error (MCPError.notConnected serverName)
  | some c => session c name args

/-- `ping(serverName)`: returns `false` (it does not throw) when the name has
no registered client; otherwise reports whether the session's ping succeeded
(its own failures are caught and also yield `false`). -/
def ping (st : ClientState) (session : Nat → Bool) (serverName : String) : Bool :=
  match mapGet st.clients serverName with
  | none => false
  | some c => session c

/-! ## Registry reads -/

/-- `getServerInfo(serverName)`: a pure cache lookup. -/
def getServerInfo (st : ClientState) (serverName : String) : Option ServerInfo :=
  mapGet st.serverInfos serverName

/-- `getConnectedServers()`. -/
def getConnectedServers (st : ClientState) : List String :=
  st.clients.map (fun p => p.1)

/-- `isConnected(serverName)`. -/
def isConnected (st : ClientState) (serverName : String) : Bool :=
  mapHas st.clients serverName

/-! ## Agentic query orchestration (`queryWithLLM`) -/

/-- A content block of a model response: free text or a tool-invocation
request carrying a correlation id, the qualified tool name and the JSON
arguments. -/
inductive ContentBlock where
  | text (s : String)
  | toolUse (id : String) (name : String) (input : String)
deriving DecidableEq, Repr

/-- A conversation message as sent to the model backend: the initial user
query string, an assistant turn holding content blocks, or a user turn
holding one `tool_result` block correlated by `tool_use_id`. -/
inductive Msg where
  | userText (s : String)
  | assistant (blocks : List ContentBlock)
  | userToolResult (toolUseId : String) (content : String)
deriving DecidableEq, Repr

/-- An entry of the mutable `followUpMessages` array. The source pushes the
`assistantContent` ARRAY BY REFERENCE (an assistant turn holding the shared array), so an assistant entry denotes whatever that shared
array holds at the time a request is materialized; `Turn.assistantRef` models
exactly this aliasing. -/
inductive Turn where
  | userText (s : String)
  | assistantRef
  | userToolResult (toolUseId : String) (content : String)
deriving DecidableEq, Repr

/-- Resolve the `assistantRef` aliases against the current contents of the
shared `assistantContent` array, yielding the message list actually sent. -/
def materialize (assistantContent : List ContentBlock) (turns : List Turn) : List Msg :=
  turns.map (fun t =>
    match t with
    | Turn.userText s => Msg.userText s
    | Turn.assistantRef => Msg.assistant assistantContent
    | Turn.userToolResult i c => Msg.userToolResult i c)

/-- A tool definition presented to the model
(`{ name, description, input_schema }`). -/
structure ToolDef where
  name : String
  description : String
  input_schema : Option String
deriving DecidableEq, Repr

/-- `tool.description || \x7btool-name-fallback\x7d`: JS `||` treats the empty
string and a missing field alike. -/
def toolDescription (tool : Tool) (serverName : String) : String :=
  match tool.description with
  | some d => if d = "" then "Tool " ++ tool.name ++ " from " ++ serverName else d
  | none => "Tool " ++ tool.name ++ " from " ++ serverName

/-- The per-server filter of the tool-collection loop:
`if (preferredServer && serverName !== preferredServer) continue` — the guard
is a truthiness test, so `none` and `some ""` keep every server. -/
def keepServer (preferredServer : Option String) (serverName : String) : Bool :=
  match preferredServer with
  | none => true
  | some p => p = "" || serverName = p

/-- The tool-collection loop of `queryWithLLM`: walk `serverInfos` in
insertion order, skip servers filtered out by `preferredServer`, and rename
each tool to `\x7bserverName\x7d_\x7btool.name\x7d`. -/
def flattenTools (serverInfos : List (String × ServerInfo))
    (preferredServer : Option String) : List ToolDef :=
  (serverInfos.filter (fun p => keepServer preferredServer p.1)).flatMap
    (fun p => p.2.tools.map (fun tool =>
      { name := p.1 ++ "_" ++ tool.name
        description := toolDescription tool p.1
        input_schema := tool.inputSchema }))

/-- `String.prototype.indexOf` for a single character on the character list:
`none` models the JS result `-1`. -/
def jsIndexOf : List Char → Char → Option Nat
  | [], _ => none
  | a :: l, c => if a = c then some 0 else (jsIndexOf l c).map (fun i => i + 1)

/-- The qualified-name split of `queryWithLLM`:
`underscoreIndex = name.indexOf('_')`,
`serverName = name.substring(0, underscoreIndex)`,
`toolName = name.substring(underscoreIndex + 1)`.
When no underscore occurs (`indexOf` is `-1`), JS `substring` clamps the
negative bound, giving `("", name)`. -/
def splitToolName (qualified : String) : String × String :=
  match jsIndexOf qualified.toList '_' with
  | some i =>
    (String.mk (qualified.toList.take i), String.mk (qualified.toList.drop (i + 1)))
  | none => ("", qualified)

/-- The JS whitespace class stripped by `String.prototype.trim` (the members
that can occur in this development's strings). -/
def isJsWhitespace (c : Char) : Bool :=
  c = ' ' || c = '\n' || c = '\t' || c = '\r'

/-- `String.prototype.trim`: strip leading and trailing whitespace. -/
def jsTrim (s : String) : String :=
  String.mk (((s.toList.dropWhile isJsWhitespace).reverse.dropWhile isJsWhitespace).reverse)

/-- The observable outcome of one `queryWithLLM` call: the returned answer
text, plus the effect traces of the call — the `this.callTool` invocations
made (server name, tool name, arguments, in order) and the message lists of
the requests sent to the model backend (in order). -/
structure QueryOutcome where
  result : String
  toolCalls : List (String × String × String)
  llmRequests : List (List Msg)
deriving DecidableEq, Repr

/-- The in-flight accumulator of the orchestration loop: the `result` string,
the `followUpMessages` array, the shared `assistantContent` array, and the
two effect traces. -/
structure QueryAcc where
  result : String
  followUpMessages : List Turn
  assistantContent : List ContentBlock
  toolCalls : List (String × String × String)
  llmRequests : List (List Msg)
deriving DecidableEq, Repr

/-- The text extraction applied to a follow-up response: only `text` blocks
contribute, each with a trailing newline; `tool_use` blocks are ignored. -/
def followUpText (blocks : List ContentBlock) : String :=
  String.join (blocks.filterMap (fun b =>
    match b with
    | ContentBlock.text s => some (s ++ "\n")
    | ContentBlock.toolUse _ _ _ => none))

/-- The `for (const content of response.content)` loop of `queryWithLLM`.

`llm` is the model backend (`this.anthropic.messages.create`), a function of
the tool list and the messages; `session` is the per-client tool-call oracle
used by `callTool`. A `text` block is appended to the output and to
`assistantContent`. A `tool_use` block is split at the first underscore and
dispatched via `callTool`; on success `[name executed]` is recorded, the
assistant turn and a `tool_result` turn correlated to the block's id are
pushed, one follow-up model request is made and only its text blocks are
appended; on failure `[name failed: ...]` is recorded as literal text and the
loop moves on to the remaining blocks. -/
def processBlocks (st : ClientState)
    (session : Nat → String → String → Except MCPError String)
    (llm : List ToolDef → List Msg → List ContentBlock)
    (allTools : List ToolDef) : List ContentBlock → QueryAcc → QueryAcc
  | [], acc => acc
  | ContentBlock.text s :: rest, acc =>
    processBlocks st session llm allTools rest
      { acc with
        result := acc.result ++ s ++ "\n"
        assistantContent := acc.assistantContent ++ [ContentBlock.text s] }
  | ContentBlock.toolUse id name input :: rest, acc =>
    let ac := acc.assistantContent ++ [ContentBlock.toolUse id name input]
    let serverName := (splitToolName name).1
    let toolName := (splitToolName name).2
    let acc1 : QueryAcc :=
      { acc with
        assistantContent := ac
        toolCalls := acc.toolCalls ++ [(serverName, toolName, input)] }
    match callTool st session serverName toolName input with
    | Except.ok toolResult =>
      let fum := acc1.followUpMessages ++ [Turn.assistantRef, Turn.userToolResult id toolResult]
      let req := materialize ac fum
      let followUp := llm allTools req
      processBlocks st session llm allTools rest
        { acc1 with
          result := acc1.result ++ "\n[" ++ name ++ " executed]\n" ++ followUpText followUp
          followUpMessages := fum
          llmRequests := acc1.llmRequests ++ [req] }
    | Except.error e =>
      processBlocks st session llm allTools rest
        { acc1 with
          result := acc1.result ++ "\n[" ++ name ++ " failed: " ++ e.render ++ "]\n" }

/-- `queryWithLLM(query, preferredServer?)`: throws the
`Anthropic API key not configured` error when no Anthropic handle exists;
otherwise collects the (possibly filtered) flattened tool list, sends the
initial request `[\x7brole: user, content: query\x7d]`, runs the response
loop, and returns `result.trim()` together with the call's effect traces. -/
def queryWithLLM (st : ClientState)
    (session : Nat → String → String → Except MCPError String)
    (llm : List ToolDef → List Msg → List ContentBlock)
    (query : String) (preferredServer : Option String) :
    Except MCPError QueryOutcome :=
  if st.anthropic = false then
    Except.error MCPError.apiKeyNotConfigured
  else
    let allTools := flattenTools st.serverInfos preferredServer
    let initialMessages : List Msg := [Msg.userText query]
    let response := llm allTools initialMessages
    let acc0 : QueryAcc :=
      { result := ""
        followUpMessages := [Turn.userText query]
        assistantContent := []
        toolCalls := []
        llmRequests := [initialMessages] }
    let accF := processBlocks st session llm allTools response acc0
    Except.ok
      { result := jsTrim accF.result
        toolCalls := accF.toolCalls
        llmRequests := accF.llmRequests }

/-! ## Derived observations used to state the properties -/

/-- The accumulator update a `text` block performs. -/
def textStepAcc (s : String) (acc : QueryAcc) : QueryAcc :=
  { acc with
    result := acc.result ++ s ++ "\n"
    assistantContent := acc.assistantContent ++ [ContentBlock.text s] }

/-- The accumulator update a `tool_use` block performs when its dispatch
succeeds with result `res`: the `[name executed]` marker and the follow-up
response's text are appended to the output, the assistant turn and the
correlated `tool_result` turn are pushed, and one follow-up model request is
recorded. -/
def okStepAcc (llm : List ToolDef → List Msg → List ContentBlock)
    (allTools : List ToolDef) (id name input res : String) (acc : QueryAcc) : QueryAcc :=
  let ac := acc.assistantContent ++ [ContentBlock.toolUse id name input]
  let fum := acc.followUpMessages ++ [Turn.assistantRef, Turn.userToolResult id res]
  let req := materialize ac fum
  { acc with
    assistantContent := ac
    toolCalls := acc.toolCalls ++ [((splitToolName name).1, (splitToolName name).2, input)]
    result := acc.result ++ "\n[" ++ name ++ " executed]\n" ++ followUpText (llm allTools req)
    followUpMessages := fum
    llmRequests := acc.llmRequests ++ [req] }

/-- The accumulator update a `tool_use` block performs when its dispatch
fails with error `e`: the failure is recorded as literal text in the output;
`followUpMessages` and `llmRequests` are untouched. -/
def failStepAcc (id name input : String) (e : MCPError) (acc : QueryAcc) : QueryAcc :=
  { acc with
    assistantContent := acc.assistantContent ++ [ContentBlock.toolUse id name input]
    toolCalls := acc.toolCalls ++ [((splitToolName name).1, (splitToolName name).2, input)]
    result := acc.result ++ "\n[" ++ name ++ " failed: " ++ e.render ++ "]\n" }


/-- The outcome `queryWithLLM` produces when a model backend is configured:
the initial request, the response loop over the initial response's blocks,
and the trimmed result (see `queryWithLLM_ok`). -/
def queryOutcomeOf (st : ClientState)
    (session : Nat → String → String → Except MCPError String)
    (llm : List ToolDef → List Msg → List ContentBlock)
    (query : String) (preferredServer : Option String) : QueryOutcome :=
  let allTools := flattenTools st.serverInfos preferredServer
  let initialMessages : List Msg := [Msg.userText query]
  let acc0 : QueryAcc :=
    { result := ""
      followUpMessages := [Turn.userText query]
      assistantContent := []
      toolCalls := []
      llmRequests := [initialMessages] }
  let accF := processBlocks st session llm allTools (llm allTools initialMessages) acc0
  { result := jsTrim accF.result
    toolCalls := accF.toolCalls
    llmRequests := accF.llmRequests }

/-- The dispatches a response's blocks give rise to: each `tool_use` block,
split at the first underscore, in emission order. -/
def dispatchesOf (blocks : List ContentBlock) : List (String × String × String) :=
  blocks.filterMap (fun b =>
    match b with
    | ContentBlock.toolUse _ name input =>
      some ((splitToolName name).1, (splitToolName name).2, input)
    | ContentBlock.text _ => none)

/-- The successful dispatches among a response's `tool_use` blocks, as pairs
of the block's correlation id and the tool result, in emission order. -/
def successesOf (st : ClientState)
    (session : Nat → String → String → Except MCPError String)
    (blocks : List ContentBlock) : List (String × String) :=
  blocks.filterMap (fun b =>
    match b with
    | ContentBlock.toolUse id name input =>
      match callTool st session (splitToolName name).1 (splitToolName name).2 input with
      | Except.ok res => some (id, res)
      | Except.error _ => none
    | ContentBlock.text _ => none)

/-- `occursIn tag l`: the list `tag` occurs contiguously inside `l`. -/
def occursIn {α : Type} (tag l : List α) : Prop :=
  ∃ x y, l = x ++ (tag ++ y)

/-- The literal failure marker `[<name> failed:` written into the output when
a tool invocation fails, as a character list. -/
def failureTag (name : String) : List Char :=
  '[' :: name.toList ++ (" failed:").toList

/-! ## Concrete scenario inputs used by counterexamples and witnesses -/

/-- A well-formed stdio transport descriptor. -/
def sampleConfig : MCPServerConfig :=
  { name := "sample"
    transport :=
      { type := TransportType.stdio
        stdio := some { command := "node", args := ["server.js"], env := none }
        sse := none }
    description := none }

/-- A lone tool named `search` with no description and no schema. -/
def searchTool : Tool := { name := "search", description := none, inputSchema := none }

/-- Discovery outcomes of a backend that supports tools but fails the
resource list call. -/
def sampleOutcomes : ListOutcomes :=
  { tools := Except.ok [searchTool]
    resources := Except.error "Method not found"
    prompts := Except.ok [] }

/-- A snapshot exposing only the `search` tool. -/
def searchInfo (serverName : String) : ServerInfo :=
  { name := serverName, tools := [searchTool], resources := [], prompts := [] }

/-- A state with servers `A` and `B` connected, each exposing `search`, and a
configured model backend. -/
def stateAB : ClientState :=
  { clients := [("A", 1), ("B", 2)]
    transports := []
    serverInfos := [("A", searchInfo "A"), ("B", searchInfo "B")]
    anthropic := true
    anthropicModel := "claude-3-5-sonnet-20241022" }

/-- A state with exactly server `A` connected under client handle 1. -/
def stateA1 : ClientState :=
  { clients := [("A", 1)]
    transports := []
    serverInfos := [("A", searchInfo "A")]
    anthropic := false
    anthropicModel := "m" }

/-- A session oracle whose tool calls always succeed with result `RES`. -/
def okSession : Nat → String → String → Except MCPError String :=
  fun _ _ _ => Except.ok "RES"

/-- A session oracle whose tool calls always fail with a backend error. -/
def failSession : Nat → String → String → Except MCPError String :=
  fun _ _ _ => Except.error (MCPError.sessionError "Error: tool exploded")

/-- A model backend that requests `B_search` on the initial ask and, on every
follow-up ask, requests `A_search` and then emits the text `done`: per the
spec the follow-up tool request would have to be executed as well. -/
def chainLLM : List ToolDef → List Msg → List ContentBlock :=
  fun _ msgs =>
    if msgs = [Msg.userText "q"] then
      [ContentBlock.toolUse "i1" "B_search" "argsB"]
    else
      [ContentBlock.toolUse "i2" "A_search" "argsA", ContentBlock.text "done"]

/-- A model backend that requests `A_search` on the initial ask and answers
plain text afterwards. -/
def oneShotLLM : List ToolDef → List Msg → List ContentBlock :=
  fun _ msgs =>
    if msgs = [Msg.userText "q"] then
      [ContentBlock.toolUse "i1" "A_search" "argsA"]
    else
      [ContentBlock.text "done"]





/-! # Theorems -/

/-! ## JS Map lemmas -/

theorem mapGet_mapSet_self {α : Type} (m : List (String × α)) (k : String) (v : α) :
    mapGet (mapSet m k v) k = some v := by
  induction m with
  | nil => simp [mapSet, mapGet]
  | cons p m ih =>
    by_cases h : p.1 = k
    · simp [mapSet, h, mapGet]
    · simp [mapSet, h, mapGet, ih]

theorem mapGet_mapSet_ne {α : Type} (m : List (String × α)) (k k' : String) (v : α)
    (h : ¬ k = k') : mapGet (mapSet m k v) k' = mapGet m k' := by
  induction m with
  | nil => simp [mapSet, mapGet, h]
  | cons p m ih =>
    by_cases hp : p.1 = k
    · simp [mapSet, hp, mapGet, h]
    · simp [mapSet, hp, mapGet, ih]

theorem mapHas_eq_isSome {α : Type} (m : List (String × α)) (k : String) :
    mapHas m k = (mapGet m k).isSome := by
  induction m with
  | nil => simp [mapHas, mapGet]
  | cons p m ih =>
    by_cases h : p.1 = k
    · simp [mapHas, mapGet, h]
    · simp [mapHas, mapGet, h, ih]

theorem mapGet_mapDelete_self {α : Type} (m : List (String × α)) (k : String) :
    mapGet (mapDelete m k) k = none := by
  induction m with
  | nil => simp [mapDelete, mapGet]
  | cons p m ih =>
    by_cases h : p.1 = k
    · simp [mapDelete, h, ih]
    · simp [mapDelete, h, mapGet, ih]

/-! ## Connection lifecycle: structural lemmas -/

theorem connect_ok_elim {st : ClientState} {n : String} {cfg : MCPServerConfig}
    {uid : Nat} {co : Except MCPError Unit} {oc : ListOutcomes}
    {st' : ClientState} {closed : List Nat}
    (h : connectToServer st n cfg uid co oc = Except.ok (st', closed)) :
    ∃ tr, buildTransport n cfg = Except.ok tr ∧ co = Except.ok () ∧ closed = [] ∧
      st' = { st with
              clients := mapSet st.clients n uid
              transports := mapSet st.transports n tr
              serverInfos := mapSet st.serverInfos n
                { name := n
                  tools := capOrEmpty oc.tools
                  resources := capOrEmpty oc.resources
                  prompts := capOrEmpty oc.prompts } } := by
  unfold connectToServer at h
  cases hbt : buildTransport n cfg with
  | error e => rw [hbt] at h; cases h
  | ok tr =>
    rw [hbt] at h
    cases co with
    | error e => cases h
    | ok u =>
      cases u
      refine ⟨tr, rfl, rfl, ?_, ?_⟩
      · simp [discoverServerCapabilities, mapGet_mapSet_self] at h
        exact h.2
      · simp [discoverServerCapabilities, mapGet_mapSet_self] at h
        exact h.1.symm

theorem connect_ok_intro (st : ClientState) (n : String) (cfg : MCPServerConfig)
    (uid : Nat) (oc : ListOutcomes) (tr : Transport)
    (hbt : buildTransport n cfg = Except.ok tr) :
    connectToServer st n cfg uid (Except.ok ()) oc =
      Except.ok ({ st with
              clients := mapSet st.clients n uid
              transports := mapSet st.transports n tr
              serverInfos := mapSet st.serverInfos n
                { name := n
                  tools := capOrEmpty oc.tools
                  resources := capOrEmpty oc.resources
                  prompts := capOrEmpty oc.prompts } }, []) := by
  unfold connectToServer
  rw [hbt]
  simp [discoverServerCapabilities, mapGet_mapSet_self]

/-- C9: after a successful `connectToServer`, `getServerInfo` answers from
the cache with the freshly captured snapshot (a pure lookup, no oracle is
consulted) and `isConnected` is true. -/
theorem connect_snapshot_ready (st : ClientState) (n : String) (cfg : MCPServerConfig)
    (uid : Nat) (co : Except MCPError Unit) (oc : ListOutcomes)
    (st' : ClientState) (closed : List Nat)
    (h : connectToServer st n cfg uid co oc = Except.ok (st', closed)) :
    getServerInfo st' n = some
      { name := n
        tools := capOrEmpty oc.tools
        resources := capOrEmpty oc.resources
        prompts := capOrEmpty oc.prompts } ∧
    isConnected st' n = true := by
  obtain ⟨tr, _, _, _, hst⟩ := connect_ok_elim h
  subst hst
  constructor
  · simp [getServerInfo, mapGet_mapSet_self]
  · simp [isConnected, mapHas_eq_isSome, mapGet_mapSet_self]

/-- Witness for `connect_snapshot_ready` at a concrete connect. -/
theorem connect_snapshot_ready_witness :
    connectToServer (mkClient (some "key") none) "A" sampleConfig 1 (Except.ok ())
        sampleOutcomes =
      Except.ok ({ clients := [("A", 1)]
                   transports := [("A", Transport.stdio "node" ["server.js"] [])]
                   serverInfos := [("A", searchInfo "A")]
                   anthropic := true
                   anthropicModel := "claude-3-5-sonnet-20241022" }, []) ∧
    (getServerInfo { clients := [("A", 1)]
                     transports := [("A", Transport.stdio "node" ["server.js"] [])]
                     serverInfos := [("A", searchInfo "A")]
                     anthropic := true
                     anthropicModel := "claude-3-5-sonnet-20241022" } "A" = some
      { name := "A"
        tools := capOrEmpty sampleOutcomes.tools
        resources := capOrEmpty sampleOutcomes.resources
        prompts := capOrEmpty sampleOutcomes.prompts } ∧
     isConnected { clients := [("A", 1)]
                   transports := [("A", Transport.stdio "node" ["server.js"] [])]
                   serverInfos := [("A", searchInfo "A")]
                   anthropic := true
                   anthropicModel := "claude-3-5-sonnet-20241022" } "A" = true) :=
  ⟨rfl, connect_snapshot_ready (mkClient (some "key") none) "A" sampleConfig 1
    (Except.ok ()) sampleOutcomes
    { clients := [("A", 1)]
      transports := [("A", Transport.stdio "node" ["server.js"] [])]
      serverInfos := [("A", searchInfo "A")]
      anthropic := true
      anthropicModel := "claude-3-5-sonnet-20241022" } [] rfl⟩

/-- C4: capability discovery is per-capability fault tolerant. First part:
for every combination of list-call outcomes, the connect succeeds and the
snapshot records each failed capability as the empty list. Second part: a
backend that supports tools but fails the resource list yields a snapshot
with the non-empty tool list and an empty resource list, never a connect
failure. -/
theorem discovery_fault_tolerant (st : ClientState) (n : String) (cfg : MCPServerConfig)
    (uid : Nat) (tr : Transport) (hbt : buildTransport n cfg = Except.ok tr) :
    (∀ oc : ListOutcomes, ∃ st',
      connectToServer st n cfg uid (Except.ok ()) oc = Except.ok (st', []) ∧
      getServerInfo st' n = some
        { name := n
          tools := capOrEmpty oc.tools
          resources := capOrEmpty oc.resources
          prompts := capOrEmpty oc.prompts }) ∧
    (∀ (oc : ListOutcomes) (ts : List Tool) (msg : String),
      oc.tools = Except.ok ts → ts ≠ [] → oc.resources = Except.error msg →
      ∃ st',
        connectToServer st n cfg uid (Except.ok ()) oc = Except.ok (st', []) ∧
        getServerInfo st' n = some
          { name := n, tools := ts, resources := [], prompts := capOrEmpty oc.prompts } ∧
        ts ≠ []) := by
  constructor
  · intro oc
    refine ⟨_, connect_ok_intro st n cfg uid oc tr hbt, ?_⟩
    simp [getServerInfo, mapGet_mapSet_self]
  · intro oc ts msg hts hne hrs
    refine ⟨_, connect_ok_intro st n cfg uid oc tr hbt, ?_, hne⟩
    simp [getServerInfo, mapGet_mapSet_self, capOrEmpty, hts, hrs]

/-- Witness for `discovery_fault_tolerant` at a concrete descriptor and the
concrete outcomes of a backend supporting tools but failing the resource
list. -/
theorem discovery_fault_tolerant_witness :
    buildTransport "A" sampleConfig = Except.ok (Transport.stdio "node" ["server.js"] []) ∧
    (∃ st',
      connectToServer stateA1 "A" sampleConfig 7 (Except.ok ()) sampleOutcomes =
        Except.ok (st', []) ∧
      getServerInfo st' "A" = some
        { name := "A"
          tools := capOrEmpty sampleOutcomes.tools
          resources := capOrEmpty sampleOutcomes.resources
          prompts := capOrEmpty sampleOutcomes.prompts }) :=
  ⟨rfl, (discovery_fault_tolerant stateA1 "A" sampleConfig 7
    (Transport.stdio "node" ["server.js"] []) rfl).1 sampleOutcomes⟩

/-- C8 (amended): a successful reconnect of an already-connected identifier
replaces the prior handle in the registry map, but the prior handle is not
closed: the close trace of `connectToServer` is empty. -/
theorem reconnect_replaces_without_close (st : ClientState) (n : String)
    (cfg : MCPServerConfig) (uid old : Nat) (co : Except MCPError Unit)
    (oc : ListOutcomes) (st' : ClientState) (closed : List Nat)
    (_hold : mapGet st.clients n = some old)
    (h : connectToServer st n cfg uid co oc = Except.ok (st', closed)) :
    mapGet st'.clients n = some uid ∧ closed = [] := by
  obtain ⟨tr, _, _, hcl, hst⟩ := connect_ok_elim h
  subst hst
  exact ⟨mapGet_mapSet_self _ _ _, hcl⟩

/-- Witness for `reconnect_replaces_without_close`: reconnecting `A` (handle
1) with handle 2. -/
theorem reconnect_replaces_without_close_witness :
    mapGet stateA1.clients "A" = some 1 ∧
    connectToServer stateA1 "A" sampleConfig 2 (Except.ok ()) sampleOutcomes =
      Except.ok ({ clients := [("A", 2)]
                   transports := [("A", Transport.stdio "node" ["server.js"] [])]
                   serverInfos := [("A", searchInfo "A")]
                   anthropic := false
                   anthropicModel := "m" }, []) ∧
    (mapGet ({ clients := [("A", 2)]
               transports := [("A", Transport.stdio "node" ["server.js"] [])]
               serverInfos := [("A", searchInfo "A")]
               anthropic := false
               anthropicModel := "m" } : ClientState).clients "A" = some 2 ∧
      ([] : List Nat) = []) :=
  ⟨rfl, rfl,
    reconnect_replaces_without_close stateA1 "A" sampleConfig 2 1 (Except.ok ())
      sampleOutcomes
      { clients := [("A", 2)]
        transports := [("A", Transport.stdio "node" ["server.js"] [])]
        serverInfos := [("A", searchInfo "A")]
        anthropic := false
        anthropicModel := "m" } [] rfl rfl⟩

/-- C8 (counterexample to the claim as stated): reconnecting the connected
identifier `A` succeeds and installs the replacement handle 2, yet the close
trace of the call is empty — the prior handle 1 is never closed, contradicting
"the prior handle is closed before the replacement is installed". -/
theorem reconnect_does_not_close_prior :
    connectToServer stateA1 "A" sampleConfig 2 (Except.ok ()) sampleOutcomes =
      Except.ok ({ clients := [("A", 2)]
                   transports := [("A", Transport.stdio "node" ["server.js"] [])]
                   serverInfos := [("A", searchInfo "A")]
                   anthropic := false
                   anthropicModel := "m" }, []) ∧
    mapGet stateA1.clients "A" = some 1 := by
  constructor <;> rfl

/-- C1 (code behavior at the failing input): the identifier `my_server`
contains the reserved separator, yet `connectToServer` performs no validation:
the connect succeeds, the handle and the snapshot are installed, and a tool
qualified with this identifier splits at the wrong underscore, extracting
server `my` and tool `server_search`. -/
theorem connect_accepts_separator_identifier :
    ("my_server".toList.contains '_') = true ∧
    connectToServer (mkClient (some "key") none) "my_server" sampleConfig 1
        (Except.ok ()) sampleOutcomes =
      Except.ok ({ clients := [("my_server", 1)]
                   transports := [("my_server", Transport.stdio "node" ["server.js"] [])]
                   serverInfos := [("my_server", searchInfo "my_server")]
                   anthropic := true
                   anthropicModel := "claude-3-5-sonnet-20241022" }, []) ∧
    isConnected { clients := [("my_server", 1)]
                  transports := [("my_server", Transport.stdio "node" ["server.js"] [])]
                  serverInfos := [("my_server", searchInfo "my_server")]
                  anthropic := true
                  anthropicModel := "claude-3-5-sonnet-20241022" } "my_server" = true ∧
    splitToolName "my_server_search" = ("my", "server_search") := by
  refine ⟨by rfl, by rfl, by rfl, by rfl⟩

/-! ## Orchestration loop: step equations and trace lemmas -/

theorem toList_append (s t : String) : (s ++ t).toList = s.toList ++ t.toList := rfl

theorem head?_append_left {α : Type} (l₁ l₂ : List α) (x : α) (h : l₁.head? = some x) :
    (l₁ ++ l₂).head? = some x := by
  cases l₁ with
  | nil => cases h
  | cons a t => simpa using h

theorem processBlocks_text_step (st : ClientState)
    (session : Nat → String → String → Except MCPError String)
    (llm : List ToolDef → List Msg → List ContentBlock) (allTools : List ToolDef)
    (s : String) (rest : List ContentBlock) (acc : QueryAcc) :
    processBlocks st session llm allTools (ContentBlock.text s :: rest) acc =
      processBlocks st session llm allTools rest (textStepAcc s acc) := rfl

theorem processBlocks_ok_step (st : ClientState)
    (session : Nat → String → String → Except MCPError String)
    (llm : List ToolDef → List Msg → List ContentBlock) (allTools : List ToolDef)
    (id name input res : String) (rest : List ContentBlock) (acc : QueryAcc)
    (hok : callTool st session (splitToolName name).1 (splitToolName name).2 input =
      Except.ok res) :
    processBlocks st session llm allTools (ContentBlock.toolUse id name input :: rest) acc =
      processBlocks st session llm allTools rest (okStepAcc llm allTools id name input res acc) := by
  simp only [processBlocks, hok, okStepAcc]

theorem processBlocks_fail_step (st : ClientState)
    (session : Nat → String → String → Except MCPError String)
    (llm : List ToolDef → List Msg → List ContentBlock) (allTools : List ToolDef)
    (id name input : String) (e : MCPError) (rest : List ContentBlock) (acc : QueryAcc)
    (hfail : callTool st session (splitToolName name).1 (splitToolName name).2 input =
      Except.error e) :
    processBlocks st session llm allTools (ContentBlock.toolUse id name input :: rest) acc =
      processBlocks st session llm allTools rest (failStepAcc id name input e acc) := by
  simp only [processBlocks, hfail, failStepAcc]

theorem processBlocks_append (st : ClientState)
    (session : Nat → String → String → Except MCPError String)
    (llm : List ToolDef → List Msg → List ContentBlock) (allTools : List ToolDef)
    (l₁ l₂ : List ContentBlock) (acc : QueryAcc) :
    processBlocks st session llm allTools (l₁ ++ l₂) acc =
      processBlocks st session llm allTools l₂
        (processBlocks st session llm allTools l₁ acc) := by
  induction l₁ generalizing acc with
  | nil => simp [processBlocks]
  | cons b rest ih =>
    cases b with
    | text s' =>
      rw [List.cons_append, processBlocks_text_step, processBlocks_text_step, ih]
    | toolUse id name input =>
      cases h : callTool st session (splitToolName name).1 (splitToolName name).2 input with
      | ok res =>
        rw [List.cons_append, processBlocks_ok_step st session llm allTools id name input res _ _ h,
          processBlocks_ok_step st session llm allTools id name input res _ _ h, ih]
      | error e =>
        rw [List.cons_append, processBlocks_fail_step st session llm allTools id name input e _ _ h,
          processBlocks_fail_step st session llm allTools id name input e _ _ h, ih]

theorem processBlocks_result_ext (st : ClientState)
    (session : Nat → String → String → Except MCPError String)
    (llm : List ToolDef → List Msg → List ContentBlock) (allTools : List ToolDef)
    (blocks : List ContentBlock) :
    ∀ (acc : QueryAcc) (a : String), (∃ s, acc.result = a ++ s) →
      ∃ t, (processBlocks st session llm allTools blocks acc).result = a ++ t := by
  induction blocks with
  | nil => intro acc a h; simpa [processBlocks] using h
  | cons b rest ih =>
    intro acc a h
    obtain ⟨s, hs⟩ := h
    cases b with
    | text s' =>
      rw [processBlocks_text_step]
      apply ih
      exact ⟨s ++ s' ++ "\n", by simp [textStepAcc, hs, String.append_assoc]⟩
    | toolUse id name input =>
      cases hc : callTool st session (splitToolName name).1 (splitToolName name).2 input with
      | ok res =>
        rw [processBlocks_ok_step st session llm allTools id name input res _ _ hc]
        apply ih
        refine ⟨s ++ ("\n[" ++ name ++ " executed]\n" ++
          followUpText (llm allTools (materialize
            (acc.assistantContent ++ [ContentBlock.toolUse id name input])
            (acc.followUpMessages ++ [Turn.assistantRef, Turn.userToolResult id res])))), ?_⟩
        simp [okStepAcc, hs, String.append_assoc]
      | error e =>
        rw [processBlocks_fail_step st session llm allTools id name input e _ _ hc]
        apply ih
        exact ⟨s ++ ("\n[" ++ name ++ " failed: " ++ e.render ++ "]\n"), by
          simp [failStepAcc, hs, String.append_assoc]⟩

theorem processBlocks_toolCalls (st : ClientState)
    (session : Nat → String → String → Except MCPError String)
    (llm : List ToolDef → List Msg → List ContentBlock) (allTools : List ToolDef)
    (blocks : List ContentBlock) :
    ∀ (acc : QueryAcc),
      (processBlocks st session llm allTools blocks acc).toolCalls =
        acc.toolCalls ++ dispatchesOf blocks := by
  induction blocks with
  | nil => intro acc; simp [processBlocks, dispatchesOf]
  | cons b rest ih =>
    intro acc
    cases b with
    | text s' =>
      rw [processBlocks_text_step, ih]
      simp [textStepAcc, dispatchesOf, List.filterMap_cons]
    | toolUse id name input =>
      cases hc : callTool st session (splitToolName name).1 (splitToolName name).2 input with
      | ok res =>
        rw [processBlocks_ok_step st session llm allTools id name input res _ _ hc, ih]
        simp [okStepAcc, dispatchesOf, List.filterMap_cons]
      | error e =>
        rw [processBlocks_fail_step st session llm allTools id name input e _ _ hc, ih]
        simp [failStepAcc, dispatchesOf, List.filterMap_cons]

theorem getLast?_append_pair {α : Type} (y : List α) (c d : α) :
    (y ++ [c, d]).getLast? = some d := by
  rw [show [c, d] = [c] ++ [d] from rfl, ← List.append_assoc, List.getLast?_concat]

theorem processBlocks_llmRequests (st : ClientState)
    (session : Nat → String → String → Except MCPError String)
    (llm : List ToolDef → List Msg → List ContentBlock) (allTools : List ToolDef)
    (q : String) (blocks : List ContentBlock) :
    ∀ (acc : QueryAcc), acc.followUpMessages.head? = some (Turn.userText q) →
      ∃ reqs, (processBlocks st session llm allTools blocks acc).llmRequests =
          acc.llmRequests ++ reqs ∧
        List.Forall₂ (fun (s : String × String) req =>
            req.getLast? = some (Msg.userToolResult s.1 s.2) ∧
            req.head? = some (Msg.userText q))
          (successesOf st session blocks) reqs := by
  induction blocks with
  | nil =>
    intro acc h
    refine ⟨[], by simp [processBlocks], ?_⟩
    simp [successesOf]
  | cons b rest ih =>
    intro acc h
    cases b with
    | text s' =>
      rw [processBlocks_text_step]
      have h' : (textStepAcc s' acc).followUpMessages.head? = some (Turn.userText q) := h
      obtain ⟨reqs, h1, h2⟩ := ih _ h'
      refine ⟨reqs, ?_, ?_⟩
      · rw [h1]; rfl
      · simpa [successesOf, List.filterMap_cons] using h2
    | toolUse id name input =>
      cases hc : callTool st session (splitToolName name).1 (splitToolName name).2 input with
      | error e =>
        rw [processBlocks_fail_step st session llm allTools id name input e _ _ hc]
        have h' : (failStepAcc id name input e acc).followUpMessages.head? =
            some (Turn.userText q) := h
        obtain ⟨reqs, h1, h2⟩ := ih _ h'
        refine ⟨reqs, ?_, ?_⟩
        · rw [h1]; rfl
        · simpa [successesOf, List.filterMap_cons, hc] using h2
      | ok res =>
        rw [processBlocks_ok_step st session llm allTools id name input res _ _ hc]
        have h' : (okStepAcc llm allTools id name input res acc).followUpMessages.head? =
            some (Turn.userText q) := by
          simp only [okStepAcc]
          exact head?_append_left _ _ _ h
        obtain ⟨reqs, h1, h2⟩ := ih _ h'
        refine ⟨materialize (acc.assistantContent ++ [ContentBlock.toolUse id name input])
            (acc.followUpMessages ++ [Turn.assistantRef, Turn.userToolResult id res]) :: reqs,
          ?_, ?_⟩
        · rw [h1]
          simp [okStepAcc]
        · have hsucc : successesOf st session (ContentBlock.toolUse id name input :: rest) =
              (id, res) :: successesOf st session rest := by
            simp [successesOf, List.filterMap_cons, hc]
          rw [hsucc]
          refine List.Forall₂.cons ⟨?_, ?_⟩ h2
          · show (materialize _ (acc.followUpMessages ++
              [Turn.assistantRef, Turn.userToolResult id res])).getLast? = _
            simp only [materialize, List.map_append]
            exact getLast?_append_pair _ _ _
          · show (materialize _ (acc.followUpMessages ++
              [Turn.assistantRef, Turn.userToolResult id res])).head? = _
            simp only [materialize, List.head?_map,
              head?_append_left _ _ _ h, Option.map_some]
            rfl

theorem dropWhile_append_keep {α : Type} (p : α → Bool) (l m : List α) (c : α)
    (hm : m.head? = some c) (hc : p c = false) :
    ∃ l', (l ++ m).dropWhile p = l' ++ m := by
  induction l with
  | nil =>
    cases m with
    | nil => cases hm
    | cons a t =>
      refine ⟨[], ?_⟩
      obtain rfl : a = c := by simpa using hm
      simp [List.dropWhile, hc]
  | cons a t ih =>
    by_cases ha : p a
    · obtain ⟨l', hl⟩ := ih
      exact ⟨l', by simp [List.dropWhile, ha, hl]⟩
    · exact ⟨a :: t, by simp [List.dropWhile, ha]⟩

theorem occursIn_trimmed {α : Type} (p : α → Bool) (mid : List α) (a b : α)
    (ha : p a = false) (hb : p b = false) (s : List α)
    (hocc : occursIn (a :: (mid ++ [b])) s) :
    occursIn (a :: (mid ++ [b]))
      (((s.dropWhile p).reverse.dropWhile p).reverse) := by
  obtain ⟨x, y, rfl⟩ := hocc
  obtain ⟨l', hl⟩ := dropWhile_append_keep p x ((a :: (mid ++ [b])) ++ y) a
    (by simp) ha
  rw [hl]
  have hrev : (l' ++ ((a :: (mid ++ [b])) ++ y)).reverse =
      y.reverse ++ ((a :: (mid ++ [b])).reverse ++ l'.reverse) := by
    simp [List.reverse_append, List.append_assoc]
  rw [hrev]
  obtain ⟨y', hy⟩ := dropWhile_append_keep p y.reverse
    ((a :: (mid ++ [b])).reverse ++ l'.reverse) b
    (by simp [List.reverse_append]) hb
  rw [hy]
  refine ⟨l', y'.reverse, ?_⟩
  simp [List.reverse_append, List.reverse_reverse, List.append_assoc]

/-! ## Qualified tool names: split lemmas -/

theorem jsIndexOf_append (l m : List Char) (c : Char) (h : ¬ c ∈ l) :
    jsIndexOf (l ++ m) c = (jsIndexOf m c).map (fun i => i + l.length) := by
  induction l with
  | nil =>
    cases hj : jsIndexOf m c <;> simp [hj]
  | cons a t ih =>
    have hac : ¬ a = c := fun hac => h (hac ▸ List.mem_cons_self a t)
    have ht : ¬ c ∈ t := fun hmem => h (List.mem_cons_of_mem a hmem)
    rw [List.cons_append]
    rw [show jsIndexOf (a :: (t ++ m)) c =
      (jsIndexOf (t ++ m) c).map (fun i => i + 1) by simp [jsIndexOf, hac]]
    rw [ih ht]
    cases hj : jsIndexOf m c with
    | none => simp
    | some i => simp [List.length_cons]; omega

theorem splitToolName_qualified (sv tn : String) (h : ¬ '_' ∈ sv.toList) :
    splitToolName (sv ++ "_" ++ tn) = (sv, tn) := by
  have hlist : (sv ++ "_" ++ tn).toList = sv.toList ++ ('_' :: tn.toList) := by
    simp [toList_append]
  unfold splitToolName
  rw [hlist, jsIndexOf_append sv.toList ('_' :: tn.toList) '_' h]
  rw [show jsIndexOf ('_' :: tn.toList) '_' = some 0 by simp [jsIndexOf]]
  simp only [Option.map_some', Nat.zero_add]
  have hdrop : (sv.toList ++ '_' :: tn.toList).drop (sv.toList.length + 1) = tn.toList := by
    rw [show sv.toList ++ '_' :: tn.toList = (sv.toList ++ ['_']) ++ tn.toList by simp,
        show sv.toList.length + 1 = (sv.toList ++ ['_']).length by simp]
    exact List.drop_left _ _
  rw [List.take_left, hdrop]
  rfl

theorem qualified_inj (sv sv' tn tn' : String) (hsv : ¬ '_' ∈ sv.toList)
    (hsv' : ¬ '_' ∈ sv'.toList) (h : sv ++ "_" ++ tn = sv' ++ "_" ++ tn') :
    sv = sv' ∧ tn = tn' := by
  have h1 := splitToolName_qualified sv tn hsv
  have h2 := splitToolName_qualified sv' tn' hsv'
  rw [h] at h1
  rw [h1] at h2
  exact ⟨(Prod.mk.injEq _ _ _ _ ▸ h2).1, (Prod.mk.injEq _ _ _ _ ▸ h2).2⟩

/-! ## C2: qualified tool flattening and dispatch -/

theorem filter_keepServer_none (infos : List (String × ServerInfo)) :
    infos.filter (fun p => keepServer none p.1) = infos := by
  rw [show (fun (p : String × ServerInfo) => keepServer none p.1) = fun _ => true from
    funext (fun p => rfl)]
  exact List.filter_true infos

/-- C2: two connected servers `A` and `B`, each exposing a tool named
`search`, give two distinct qualified entries `A_search` and `B_search` in
the flattened tool list; a model invocation of `B_search` is split at the
first underscore into server `B` and original tool name `search`, and its
dispatch trace is the single call to server `B` with tool `search`. -/
theorem qualified_tools_distinct_and_dispatch (st : ClientState) (A B : String)
    (infoA infoB : ServerInfo) (tA tB : Tool)
    (hA : (A, infoA) ∈ st.serverInfos) (hB : (B, infoB) ∈ st.serverInfos)
    (htA : tA ∈ infoA.tools) (htB : tB ∈ infoB.tools)
    (hnA : tA.name = "search") (hnB : tB.name = "search")
    (hAB : ¬ A = B) (hsepA : ¬ '_' ∈ A.toList) (hsepB : ¬ '_' ∈ B.toList) :
    (∃ d ∈ flattenTools st.serverInfos none, d.name = A ++ "_" ++ "search") ∧
    (∃ d ∈ flattenTools st.serverInfos none, d.name = B ++ "_" ++ "search") ∧
    ¬ (A ++ "_" ++ "search" : String) = B ++ "_" ++ "search" ∧
    splitToolName (B ++ "_" ++ "search") = (B, "search") ∧
    (∀ session llm q id input, st.anthropic = true →
      llm (flattenTools st.serverInfos none) [Msg.userText q] =
        [ContentBlock.toolUse id (B ++ "_" ++ "search") input] →
      ∃ outcome, queryWithLLM st session llm q none = Except.ok outcome ∧
        outcome.toolCalls = [(B, "search", input)]) := by
  refine ⟨?_, ?_, ?_, splitToolName_qualified B "search" hsepB, ?_⟩
  · refine ⟨{ name := A ++ "_" ++ tA.name
              description := toolDescription tA A
              input_schema := tA.inputSchema }, ?_, by rw [hnA]⟩
    unfold flattenTools
    rw [filter_keepServer_none]
    exact List.mem_flatMap.mpr ⟨(A, infoA), hA, List.mem_map.mpr ⟨tA, htA, rfl⟩⟩
  · refine ⟨{ name := B ++ "_" ++ tB.name
              description := toolDescription tB B
              input_schema := tB.inputSchema }, ?_, by rw [hnB]⟩
    unfold flattenTools
    rw [filter_keepServer_none]
    exact List.mem_flatMap.mpr ⟨(B, infoB), hB, List.mem_map.mpr ⟨tB, htB, rfl⟩⟩
  · intro heq
    exact hAB (qualified_inj A B "search" "search" hsepA hsepB heq).1
  · intro session llm q id input hAnth hllm
    unfold queryWithLLM
    rw [hAnth]
    simp only [Bool.true_eq_false, if_false]
    rw [hllm]
    refine ⟨_, rfl, ?_⟩
    rw [processBlocks_toolCalls]
    simp [dispatchesOf, List.filterMap_cons,
      splitToolName_qualified B "search" hsepB]

/-- Witness for `qualified_tools_distinct_and_dispatch` on the concrete
two-server state. -/
theorem qualified_tools_distinct_and_dispatch_witness :
    (¬ ("A" ++ "_" ++ "search" : String) = "B" ++ "_" ++ "search") ∧
    (∃ outcome, queryWithLLM stateAB okSession chainLLM "q" none = Except.ok outcome ∧
      outcome.toolCalls = [("B", "search", "argsB")]) :=
  ⟨(qualified_tools_distinct_and_dispatch stateAB "A" "B" (searchInfo "A") (searchInfo "B")
      searchTool searchTool (by decide) (by decide) (by decide) (by decide) rfl rfl
      (by decide) (by decide) (by decide)).2.2.1,
   (qualified_tools_distinct_and_dispatch stateAB "A" "B" (searchInfo "A") (searchInfo "B")
      searchTool searchTool (by decide) (by decide) (by decide) (by decide) rfl rfl
      (by decide) (by decide) (by decide)).2.2.2.2 okSession chainLLM "q" "i1" "argsB"
      rfl (by rfl)⟩

/-! ## The orchestrator's outcome -/

theorem queryWithLLM_ok (st : ClientState)
    (session : Nat → String → String → Except MCPError String)
    (llm : List ToolDef → List Msg → List ContentBlock)
    (q : String) (pref : Option String) (hAnth : st.anthropic = true) :
    queryWithLLM st session llm q pref =
      Except.ok (queryOutcomeOf st session llm q pref) := by
  unfold queryWithLLM queryOutcomeOf
  rw [hAnth]
  rfl

theorem queryOutcome_toolCalls (st : ClientState)
    (session : Nat → String → String → Except MCPError String)
    (llm : List ToolDef → List Msg → List ContentBlock)
    (q : String) (pref : Option String) :
    (queryOutcomeOf st session llm q pref).toolCalls =
      dispatchesOf (llm (flattenTools st.serverInfos pref) [Msg.userText q]) := by
  show (processBlocks st session llm (flattenTools st.serverInfos pref)
      (llm (flattenTools st.serverInfos pref) [Msg.userText q])
      { result := ""
        followUpMessages := [Turn.userText q]
        assistantContent := []
        toolCalls := []
        llmRequests := [[Msg.userText q]] }).toolCalls = _
  rw [processBlocks_toolCalls]
  rfl

theorem queryOutcome_llmRequests (st : ClientState)
    (session : Nat → String → String → Except MCPError String)
    (llm : List ToolDef → List Msg → List ContentBlock)
    (q : String) (pref : Option String) :
    ∃ reqs, (queryOutcomeOf st session llm q pref).llmRequests =
        [Msg.userText q] :: reqs ∧
      List.Forall₂ (fun (s : String × String) req =>
          req.getLast? = some (Msg.userToolResult s.1 s.2) ∧
          req.head? = some (Msg.userText q))
        (successesOf st session (llm (flattenTools st.serverInfos pref) [Msg.userText q]))
        reqs := by
  obtain ⟨reqs, h1, h2⟩ := processBlocks_llmRequests st session llm
    (flattenTools st.serverInfos pref) q
    (llm (flattenTools st.serverInfos pref) [Msg.userText q])
    { result := ""
      followUpMessages := [Turn.userText q]
      assistantContent := []
      toolCalls := []
      llmRequests := [[Msg.userText q]] } rfl
  refine ⟨reqs, ?_, h2⟩
  show (processBlocks st session llm (flattenTools st.serverInfos pref)
      (llm (flattenTools st.serverInfos pref) [Msg.userText q])
      { result := ""
        followUpMessages := [Turn.userText q]
        assistantContent := []
        toolCalls := []
        llmRequests := [[Msg.userText q]] }).llmRequests = _
  rw [h1]
  rfl

/-- C3 (amended): for every query against a configured model backend, the
orchestrator returns normally; the dispatched tool calls are exactly the
splits of the tool-use blocks of the INITIAL model response, in order (so a
tool invocation requested in a follow-up response is never executed); and
the model requests consist of the initial request followed by exactly one
follow-up request per successful tool invocation, each starting from the
user's query and ending with a tool-result turn correlated to that
invocation's request id and carrying its result. -/
theorem orchestration_single_followup (st : ClientState)
    (session : Nat → String → String → Except MCPError String)
    (llm : List ToolDef → List Msg → List ContentBlock)
    (q : String) (pref : Option String) (hAnth : st.anthropic = true) :
    queryWithLLM st session llm q pref =
      Except.ok (queryOutcomeOf st session llm q pref) ∧
    (queryOutcomeOf st session llm q pref).toolCalls =
      dispatchesOf (llm (flattenTools st.serverInfos pref) [Msg.userText q]) ∧
    ∃ reqs, (queryOutcomeOf st session llm q pref).llmRequests =
        [Msg.userText q] :: reqs ∧
      List.Forall₂ (fun (s : String × String) req =>
          req.getLast? = some (Msg.userToolResult s.1 s.2) ∧
          req.head? = some (Msg.userText q))
        (successesOf st session (llm (flattenTools st.serverInfos pref) [Msg.userText q]))
        reqs :=
  ⟨queryWithLLM_ok st session llm q pref hAnth,
   queryOutcome_toolCalls st session llm q pref,
   queryOutcome_llmRequests st session llm q pref⟩

/-- Witness for `orchestration_single_followup` on a concrete one-tool run. -/
theorem orchestration_single_followup_witness :
    stateAB.anthropic = true ∧
    (queryWithLLM stateAB okSession oneShotLLM "q" none =
      Except.ok (queryOutcomeOf stateAB okSession oneShotLLM "q" none) ∧
    (queryOutcomeOf stateAB okSession oneShotLLM "q" none).toolCalls =
      dispatchesOf (oneShotLLM (flattenTools stateAB.serverInfos none) [Msg.userText "q"]) ∧
    ∃ reqs, (queryOutcomeOf stateAB okSession oneShotLLM "q" none).llmRequests =
        [Msg.userText "q"] :: reqs ∧
      List.Forall₂ (fun (s : String × String) req =>
          req.getLast? = some (Msg.userToolResult s.1 s.2) ∧
          req.head? = some (Msg.userText "q"))
        (successesOf stateAB okSession
          (oneShotLLM (flattenTools stateAB.serverInfos none) [Msg.userText "q"]))
        reqs) :=
  ⟨rfl, orchestration_single_followup stateAB okSession oneShotLLM "q" none rfl⟩

/-- C3 (counterexample to the claim as stated): on this concrete run the
initial response requests `B_search`; the single follow-up request is
answered by the model with a further tool-invocation request (`A_search`,
id `i2`) followed by the text `done`. The orchestrator's dispatch trace
contains only the initial `(B, search)` call, its request trace stops after
the one follow-up request, and it returns the final answer — the follow-up
tool request is never executed, contradicting the claim that tool
invocations requested in a follow-up response are executed before the final
answer is returned. -/
theorem followup_tool_requests_not_executed_cex :
    queryWithLLM stateAB okSession chainLLM "q" none = Except.ok
      { result := "[B_search executed]\ndone"
        toolCalls := [("B", "search", "argsB")]
        llmRequests := [[Msg.userText "q"],
          [Msg.userText "q",
           Msg.assistant [ContentBlock.toolUse "i1" "B_search" "argsB"],
           Msg.userToolResult "i1" "RES"]] } ∧
    chainLLM (flattenTools stateAB.serverInfos none)
      [Msg.userText "q",
       Msg.assistant [ContentBlock.toolUse "i1" "B_search" "argsB"],
       Msg.userToolResult "i1" "RES"] =
      [ContentBlock.toolUse "i2" "A_search" "argsA", ContentBlock.text "done"] := by
  constructor <;> rfl

/-! ## C5: failed tool dispatch is downgraded to inline text -/

theorem failureTag_shape (name : String) :
    failureTag name = '[' :: ((name.toList ++ (" failed").toList) ++ [':']) := by
  unfold failureTag
  rw [show (" failed:").toList = (" failed").toList ++ [':'] from rfl]
  simp [List.append_assoc]

theorem occursIn_failureTag_raw (accres rest name : String) (e : MCPError) :
    occursIn (failureTag name)
      ((accres ++ "\n[" ++ name ++ " failed: " ++ e.render ++ "]\n") ++ rest).toList := by
  refine ⟨accres.toList ++ ['\n'],
    (' ' :: e.render.toList) ++ (']' :: '\n' :: rest.toList), ?_⟩
  simp only [toList_append, failureTag]
  rw [show ("\n[").toList = ['\n', '['] from rfl,
      show (" failed: ").toList = (" failed:").toList ++ [' '] from rfl,
      show ("]\n").toList = [']', '\n'] from rfl]
  simp

theorem occursIn_failureTag_jsTrim (name : String) (s : String)
    (h : occursIn (failureTag name) s.toList) :
    occursIn (failureTag name) (jsTrim s).toList := by
  rw [failureTag_shape] at h ⊢
  exact occursIn_trimmed isJsWhitespace (name.toList ++ (" failed").toList) '[' ':'
    rfl rfl s.toList h

theorem occursIn_cons_ne_nil {α : Type} (a : α) (l m : List α)
    (h : occursIn (a :: l) m) : ¬ m = [] := by
  obtain ⟨x, y, rfl⟩ := h
  cases x <;> simp

/-- C5: a tool invocation of the initial response whose dispatch fails is
downgraded to literal text: the orchestrator still returns normally, the
trimmed final answer is a non-empty text containing the literal
`[<name> failed:` marker, the failure step touches neither the conversation
(`followUpMessages`: no tool-result turn is pushed) nor the model-request
trace (`llmRequests`: the model is not re-asked), and the loop continues
with the remaining blocks of the current response. -/
theorem tool_failure_inline_text (st : ClientState)
    (session : Nat → String → String → Except MCPError String)
    (llm : List ToolDef → List Msg → List ContentBlock)
    (q : String) (pref : Option String)
    (pre post : List ContentBlock) (id name input : String) (e : MCPError)
    (hAnth : st.anthropic = true)
    (hresp : llm (flattenTools st.serverInfos pref) [Msg.userText q] =
      pre ++ ContentBlock.toolUse id name input :: post)
    (hfail : callTool st session (splitToolName name).1 (splitToolName name).2 input =
      Except.error e) :
    queryWithLLM st session llm q pref =
      Except.ok (queryOutcomeOf st session llm q pref) ∧
    occursIn (failureTag name) (queryOutcomeOf st session llm q pref).result.toList ∧
    ¬ (queryOutcomeOf st session llm q pref).result = "" ∧
    (∀ acc, processBlocks st session llm (flattenTools st.serverInfos pref)
        (ContentBlock.toolUse id name input :: post) acc =
      processBlocks st session llm (flattenTools st.serverInfos pref) post
        (failStepAcc id name input e acc)) ∧
    (∀ acc, (failStepAcc id name input e acc).followUpMessages = acc.followUpMessages) ∧
    (∀ acc, (failStepAcc id name input e acc).llmRequests = acc.llmRequests) := by
  have hsplit : processBlocks st session llm (flattenTools st.serverInfos pref)
      (llm (flattenTools st.serverInfos pref) [Msg.userText q])
      { result := ""
        followUpMessages := [Turn.userText q]
        assistantContent := []
        toolCalls := []
        llmRequests := [[Msg.userText q]] } =
    processBlocks st session llm (flattenTools st.serverInfos pref) post
      (failStepAcc id name input e
        (processBlocks st session llm (flattenTools st.serverInfos pref) pre
          { result := ""
            followUpMessages := [Turn.userText q]
            assistantContent := []
            toolCalls := []
            llmRequests := [[Msg.userText q]] })) := by
    rw [hresp, processBlocks_append,
      processBlocks_fail_step st session llm _ id name input e post _ hfail]
  have hocc : occursIn (failureTag name)
      (queryOutcomeOf st session llm q pref).result.toList := by
    obtain ⟨t, ht⟩ := processBlocks_result_ext st session llm
      (flattenTools st.serverInfos pref) post
      (failStepAcc id name input e
        (processBlocks st session llm (flattenTools st.serverInfos pref) pre
          { result := ""
            followUpMessages := [Turn.userText q]
            assistantContent := []
            toolCalls := []
            llmRequests := [[Msg.userText q]] }))
      ((failStepAcc id name input e
        (processBlocks st session llm (flattenTools st.serverInfos pref) pre
          { result := ""
            followUpMessages := [Turn.userText q]
            assistantContent := []
            toolCalls := []
            llmRequests := [[Msg.userText q]] })).result)
      ⟨"", (String.append_empty _).symm⟩
    have hres : (queryOutcomeOf st session llm q pref).result =
        jsTrim ((processBlocks st session llm (flattenTools st.serverInfos pref) post
          (failStepAcc id name input e
            (processBlocks st session llm (flattenTools st.serverInfos pref) pre
              { result := ""
                followUpMessages := [Turn.userText q]
                assistantContent := []
                toolCalls := []
                llmRequests := [[Msg.userText q]] }))).result) := by
      show jsTrim ((processBlocks st session llm (flattenTools st.serverInfos pref)
        (llm (flattenTools st.serverInfos pref) [Msg.userText q])
        { result := ""
          followUpMessages := [Turn.userText q]
          assistantContent := []
          toolCalls := []
          llmRequests := [[Msg.userText q]] }).result) = _
      rw [hsplit]
    rw [hres, ht]
    apply occursIn_failureTag_jsTrim
    exact occursIn_failureTag_raw _ t name e
  refine ⟨queryWithLLM_ok st session llm q pref hAnth, hocc, ?_,
    fun acc => processBlocks_fail_step st session llm _ id name input e post acc hfail,
    fun acc => rfl, fun acc => rfl⟩
  intro h0
  exact occursIn_cons_ne_nil '[' _ _ hocc (by rw [h0]; rfl)

/-- Witness for `tool_failure_inline_text`: the model requests `A_search`, the
session oracle fails the call, and the answer still contains the failure
marker. -/
theorem tool_failure_inline_text_witness :
    stateAB.anthropic = true ∧
    oneShotLLM (flattenTools stateAB.serverInfos none) [Msg.userText "q"] =
      [] ++ ContentBlock.toolUse "i1" "A_search" "argsA" :: [] ∧
    callTool stateAB failSession (splitToolName "A_search").1 (splitToolName "A_search").2
        "argsA" = Except.error (MCPError.sessionError "Error: tool exploded") ∧
    (queryWithLLM stateAB failSession oneShotLLM "q" none =
      Except.ok (queryOutcomeOf stateAB failSession oneShotLLM "q" none) ∧
    occursIn (failureTag "A_search")
      (queryOutcomeOf stateAB failSession oneShotLLM "q" none).result.toList ∧
    ¬ (queryOutcomeOf stateAB failSession oneShotLLM "q" none).result = "") :=
  ⟨rfl, rfl, rfl,
    (tool_failure_inline_text stateAB failSession oneShotLLM "q" none [] [] "i1"
      "A_search" "argsA" (MCPError.sessionError "Error: tool exploded") rfl rfl rfl).1,
    (tool_failure_inline_text stateAB failSession oneShotLLM "q" none [] [] "i1"
      "A_search" "argsA" (MCPError.sessionError "Error: tool exploded") rfl rfl rfl).2.1,
    (tool_failure_inline_text stateAB failSession oneShotLLM "q" none [] [] "i1"
      "A_search" "argsA" (MCPError.sessionError "Error: tool exploded") rfl rfl rfl).2.2.1⟩

/-! ## C6: missing model credential -/

/-- C6: constructing the client without a model credential (or with the
falsy empty-string credential) leaves no model backend configured, and a
query against any state with no model backend fails immediately with the
`Anthropic API key not configured` error — for every session oracle and
every model backend oracle, so no model request is sent and no tool is
executed, and no (empty) answer is returned. -/
theorem no_api_key_fails_fast :
    (∀ model, (mkClient none model).anthropic = false) ∧
    (∀ model, (mkClient (some "") model).anthropic = false) ∧
    (∀ (st : ClientState) (session : Nat → String → String → Except MCPError String)
        (llm : List ToolDef → List Msg → List ContentBlock) (q : String)
        (pref : Option String), st.anthropic = false →
      queryWithLLM st session llm q pref = Except.error MCPError.apiKeyNotConfigured) := by
  refine ⟨fun model => rfl, fun model => rfl, ?_⟩
  intro st session llm q pref h
  unfold queryWithLLM
  rw [h]
  simp

/-- Witness for `no_api_key_fails_fast` at the concrete credential-less
client. -/
theorem no_api_key_fails_fast_witness :
    (mkClient none (some "m")).anthropic = false ∧
    queryWithLLM (mkClient none (some "m")) okSession oneShotLLM "q" none =
      Except.error MCPError.apiKeyNotConfigured :=
  ⟨no_api_key_fails_fast.1 (some "m"),
   no_api_key_fails_fast.2.2 (mkClient none (some "m")) okSession oneShotLLM "q" none rfl⟩

/-! ## C7: dispatch after disconnect -/

theorem mapGet_disconnect_self (st : ClientState) (id : String) (hid : ¬ id = "") :
    mapGet ((disconnect st (some id)).1).clients id = none := by
  simp only [disconnect]
  rw [if_neg hid]
  cases h : mapGet st.clients id with
  | none => simpa using h
  | some c => simp [mapGet_mapDelete_self]

/-- C7 (amended): after `disconnect(id)` of a non-empty identifier, a tool
call, resource read or prompt fetch addressed to `id` fails fast with the
`Server id not connected` error before any session oracle is consulted;
`ping(id)` instead returns `false` without error (for every session oracle);
a second `disconnect(id)` is a no-op and closes nothing; and `disconnect` of
any unknown non-empty identifier is a no-op. -/
theorem disconnect_dispatch_fail_fast (st : ClientState) (id : String)
    (hid : ¬ id = "") :
    (∀ session toolName args,
      callTool (disconnect st (some id)).1 session id toolName args =
        Except.error (MCPError.notConnected id)) ∧
    (∀ session uri,
      readResource (disconnect st (some id)).1 session id uri =
        Except.error (MCPError.notConnected id)) ∧
    (∀ session nm args,
      getPrompt (disconnect st (some id)).1 session id nm args =
        Except.error (MCPError.notConnected id)) ∧
    (∀ session, ping (disconnect st (some id)).1 session id = false) ∧
    disconnect (disconnect st (some id)).1 (some id) = ((disconnect st (some id)).1, []) ∧
    (∀ u, ¬ u = "" → mapGet st.clients u = none → disconnect st (some u) = (st, [])) := by
  have hnone := mapGet_disconnect_self st id hid
  refine ⟨?_, ?_, ?_, ?_, ?_, ?_⟩
  · intro session t a
    unfold callTool
    rw [hnone]
  · intro session u
    unfold readResource
    rw [hnone]
  · intro session nm a
    unfold getPrompt
    rw [hnone]
  · intro session
    unfold ping
    rw [hnone]
  · generalize hst : (disconnect st (some id)).1 = st' at hnone ⊢
    simp only [disconnect]
    rw [if_neg hid, hnone]
  · intro u hu hmap
    simp only [disconnect]
    rw [if_neg hu, hmap]

/-- Witness for `disconnect_dispatch_fail_fast` at the concrete two-server
state. -/
theorem disconnect_dispatch_fail_fast_witness :
    (¬ "A" = "") ∧
    callTool (disconnect stateAB (some "A")).1 okSession "A" "search" "x" =
      Except.error (MCPError.notConnected "A") ∧
    ping (disconnect stateAB (some "A")).1 (fun _ => true) "A" = false ∧
    disconnect (disconnect stateAB (some "A")).1 (some "A") =
      ((disconnect stateAB (some "A")).1, []) :=
  ⟨by decide,
   (disconnect_dispatch_fail_fast stateAB "A" (by decide)).1 okSession "search" "x",
   (disconnect_dispatch_fail_fast stateAB "A" (by decide)).2.2.2.1 (fun _ => true),
   (disconnect_dispatch_fail_fast stateAB "A" (by decide)).2.2.2.2.1⟩

/-- C7 (counterexample to the claim as stated): `ping` on a disconnected
identifier does not fail with a `NotConnectedError` — its contract is a
plain Boolean and it never raises; here, after `disconnect("A")`, `ping("A")`
returns `false` (even though the very same session oracle made it return
`true` while connected), instead of the claimed error. -/
theorem ping_after_disconnect_returns_false :
    ping (disconnect stateAB (some "A")).1 (fun _ => true) "A" = false ∧
    ping stateAB (fun _ => true) "A" = true := by
  constructor <;> rfl

/-! ## C10: the preferred-server filter -/

/-- C10 (amended): a NON-EMPTY preferred-server argument restricts the
flattened tool list to exactly the tools of the named server: the list
equals the flattening of the registry filtered to that name; every presented
tool definition stems from an entry of the registry under that name; and
every tool of such an entry is presented. (The empty-string argument is
treated as absent; see the counterexample.) -/
theorem preferred_server_restricts_tools (infos : List (String × ServerInfo))
    (p : String) (hp : ¬ p = "") :
    flattenTools infos (some p) =
      flattenTools (infos.filter (fun q => q.1 = p)) none ∧
    (∀ d ∈ flattenTools infos (some p), ∃ info, (p, info) ∈ infos ∧
      ∃ t ∈ info.tools, d = { name := p ++ "_" ++ t.name
                              description := toolDescription t p
                              input_schema := t.inputSchema }) ∧
    (∀ info t, (p, info) ∈ infos → t ∈ info.tools →
      ({ name := p ++ "_" ++ t.name
         description := toolDescription t p
         input_schema := t.inputSchema } : ToolDef) ∈ flattenTools infos (some p)) := by
  have hfil : infos.filter (fun q => keepServer (some p) q.1) =
      infos.filter (fun q => q.1 = p) := by
    apply List.filter_congr
    intro a _
    simp [keepServer, hp]
  refine ⟨?_, ?_, ?_⟩
  · unfold flattenTools
    rw [filter_keepServer_none, hfil]
  · intro d hd
    unfold flattenTools at hd
    rw [hfil] at hd
    obtain ⟨⟨n, info⟩, hpr, hd'⟩ := List.mem_flatMap.mp hd
    obtain ⟨hprmem, hn⟩ := List.mem_filter.mp hpr
    have hn' : n = p := by simpa using hn
    subst hn'
    obtain ⟨t, ht, rfl⟩ := List.mem_map.mp hd'
    exact ⟨info, hprmem, t, ht, rfl⟩
  · intro info t hmem ht
    unfold flattenTools
    refine List.mem_flatMap.mpr ⟨(p, info), ?_, List.mem_map.mpr ⟨t, ht, rfl⟩⟩
    refine List.mem_filter.mpr ⟨hmem, ?_⟩
    simp [keepServer]

/-- Witness for `preferred_server_restricts_tools` at the concrete two-server
state with preferred server `B`. -/
theorem preferred_server_restricts_tools_witness :
    (¬ "B" = "") ∧
    flattenTools stateAB.serverInfos (some "B") =
      flattenTools (stateAB.serverInfos.filter (fun q => q.1 = "B")) none :=
  ⟨by decide, (preferred_server_restricts_tools stateAB.serverInfos "B" (by decide)).1⟩

/-- C10 (counterexample to the claim as stated): supplying the empty string
as the preferred-server argument does not restrict the tool list to the
(nonexistent) server named `""` — the JS truthiness guard treats it as
absent, and the tools of server `A` are presented. -/
theorem empty_preferred_server_filters_nothing :
    flattenTools [("A", searchInfo "A")] (some "") =
      [{ name := "A" ++ "_" ++ "search"
         description := "Tool search from A"
         input_schema := none }] ∧
    mapGet ([("A", searchInfo "A")] : List (String × ServerInfo)) "" = none := by
  constructor <;> rfl

end UMC
